import Mathlib

/-!
Verification of the CookX Gemini client (`server/gemini_client.py`).

The Python module holds a single stateless class `GeminiClient` with two
static methods, `get_recipe_recommendations` and `test_connection`, plus a
module-level credential `API_KEY = os.environ.get("GEMINI_API_KEY")` read
once at import time.  We embed the module shallowly:

* an ingredient dict becomes a record of optional string fields (a key that
  is absent from the dict is `none`);
* Python exceptions become an explicit error type `PyError`
  (`ValueError`, `KeyError`, and the generic wrapped `Exception`);
* the remote Gemini call `model.generate_content(p).text` becomes an
  abstract function `generate : String → Except String String`
  (`Except.error m` models the call raising an exception with message `m`);
* each method returns its Python result together with the list of prompts
  actually sent to the remote API, so that "no network attempt" and
  "exactly one call" are statable.
-/

/-- One ingredient record, as passed to `get_recipe_recommendations`.
Each field is `none` when the corresponding key is absent from the dict. -/
structure Ingredient where
  name : Option String
  quantity : Option String
  unit : Option String
  location : Option String
deriving DecidableEq, Repr

/-- Python exceptions distinguished by the module. -/
inductive PyError where
  | valueError (msg : String)
  | keyError (key : String)
  | exception (msg : String)
deriving DecidableEq, Repr

/-- The abstract remote endpoint: `generate p` models
`genai.GenerativeModel('gemini-1.5-pro-latest').generate_content(p).text`,
returning the response text or raising with a message. -/
structure RemoteAPI where
  generate : String → Except String String

/-- Python truthiness of the module-level `API_KEY` (`if not API_KEY`):
`None` and the empty string are falsy. -/
def truthy : Option String → Bool
  | none => false
  | some s => !s.isEmpty

/-- The message of the missing-credential `ValueError`. -/
def missingKeyMsg : String := "GEMINI_API_KEY environment variable is not set"

/-- Module import: `API_KEY = os.environ.get("GEMINI_API_KEY")`. -/
def startupKey (env : String → Option String) : Option String :=
  env "GEMINI_API_KEY"

/-- The line built for one ingredient:
`f"{ing['name']} ({ing.get('quantity', '')} {ing.get('unit', '')}, stored in {ing.get('location', 'Kitchen')})"`.
`none` as the result models `ing['name']` raising `KeyError`. -/
def formatLine (ing : Ingredient) : Option String :=
  ing.name.map (fun n =>
    n ++ " (" ++ ing.quantity.getD "" ++ " " ++ ing.unit.getD "" ++
      ", stored in " ++ ing.location.getD "Kitchen" ++ ")")

/-- The list comprehension `[f"..." for ing in ingredients]`: all lines, or
failure as soon as some record has no name. -/
def formatLines : List Ingredient → Option (List String)
  | [] => some []
  | ing :: rest =>
    match formatLine ing, formatLines rest with
    | some line, some lines => some (line :: lines)
    | _, _ => none

/-- Python's `"\n".join`. -/
def joinNL : List String → String
  | [] => ""
  | [x] => x
  | x :: y :: rest => x ++ "\n" ++ joinNL (y :: rest)

/-- Rendering of `{preferences or "No specific preferences"}`: Python `or`
falls through on `None` and on the empty string. -/
def prefRender : Option String → String
  | none => "No specific preferences"
  | some s => if s.isEmpty then "No specific preferences" else s

/-- The fixed text of the f-string before `{ingredient_list}`. -/
def promptHead : String := "\nI have the following ingredients:\n"

/-- The fixed text of the f-string between `{ingredient_list}` and the
rendered preferences. -/
def promptMid : String := "\n\nUser preferences: "

/-- The fixed text of the f-string after the rendered preferences. -/
def promptTail : String :=
  "\n\nBased on these ingredients and preferences, suggest 3 recipes I can make.\n\nFormat each recipe as follows:\nRECIPE NAME: [name]\nCUISINE: [cuisine type]\nDIETARY INFO: [vegetarian, vegan, gluten-free, etc.]\nPREP TIME: [minutes]\nCOOK TIME: [minutes]\nSERVINGS: [number]\nINGREDIENTS:\n- [ingredient with quantity]\n- [ingredient with quantity]\n...\nINSTRUCTIONS:\n1. [step]\n2. [step]\n...\n\nOnly include recipes that I can make with the provided ingredients, with minimal additional ingredients. Follow the user preferences strictly.\n"

/-- Prompt construction inside `get_recipe_recommendations`: the
`ingredient_list` join followed by the f-string template.  The `KeyError`
from a missing `'name'` key escapes here, before the `try` block. -/
def buildPrompt (ingredients : List Ingredient) (preferences : Option String) :
    Except PyError String :=
  match formatLines ingredients with
  | none => .error (.keyError "name")
  | some lines =>
    .ok (promptHead ++ joinNL lines ++ promptMid ++ prefRender preferences ++ promptTail)

/-- Embedding of `GeminiClient.get_recipe_recommendations`.  The first component is the
method's outcome, the second the list of prompts sent to the remote API
(in order), so that the absence or multiplicity of network calls is visible. -/
def get_recipe_recommendations (apiKey : Option String) (api : RemoteAPI)
    (ingredients : List Ingredient) (preferences : Option String) :
    Except PyError String × List String :=
  if truthy apiKey = false then
    (.error (.valueError missingKeyMsg), [])
  else
    match buildPrompt ingredients preferences with
    | .error e => (.error e, [])
    | .ok prompt =>
      match api.generate prompt with
      | .ok text => (.ok text, [prompt])
      | .error msg =>
        (.error (.exception ("Error calling Gemini API: " ++ msg)), [prompt])

/-- The dict returned by a successful `test_connection`. -/
structure TestResult where
  message : String
  response : String
deriving DecidableEq, Repr

/-- The canned prompt sent by `test_connection`. -/
def testPrompt : String :=
  "Hello! Please respond with a simple test recipe for cookies."

/-- Embedding of `GeminiClient.test_connection`, with the same remote-call trace as
`get_recipe_recommendations`. -/
def test_connection (apiKey : Option String) (api : RemoteAPI) :
    Except PyError TestResult × List String :=
  if truthy apiKey = false then
    (.error (.valueError missingKeyMsg), [])
  else
    match api.generate testPrompt with
    | .ok text => (.ok ⟨"Gemini API test successful", text⟩, [testPrompt])
    | .error msg =>
      (.error (.exception ("Error calling Gemini API: " ++ msg)), [testPrompt])

/-!
A symbolic decomposition of the prompt, used to state that every
ingredient's fields are interpolated into the prompt exactly once.  A
`Piece` is either a fixed fragment of the template or the field of the
`i`-th ingredient; `promptPieces` is defined independently of
`buildPrompt`, and the refinement theorem for C1 proves that rendering the
pieces yields exactly the prompt the code builds.
-/

/-- One symbolic fragment of the prompt. -/
inductive Piece where
  | lit (s : String)
  | nameAt (i : Nat)
  | qtyAt (i : Nat)
  | unitAt (i : Nat)
  | locAt (i : Nat)
deriving DecidableEq, Repr

/-- The pieces of the line for the `i`-th ingredient. -/
def blockPieces (i : Nat) : List Piece :=
  [.nameAt i, .lit " (", .qtyAt i, .lit " ", .unitAt i, .lit ", stored in ",
   .locAt i, .lit ")"]

/-- Pieces for a row range: `rowPieces s n` is the newline-joined lines for the `n`
ingredients with indices `s, s+1, ..., s+n-1`. -/
def rowPieces : Nat → Nat → List Piece
  | _, 0 => []
  | s, 1 => blockPieces s
  | s, n + 2 => blockPieces s ++ Piece.lit "\n" :: rowPieces (s + 1) (n + 1)

/-- The symbolic decomposition of the whole prompt for `n` ingredients. -/
def promptPieces (n : Nat) (preferences : Option String) : List Piece :=
  Piece.lit promptHead :: rowPieces 0 n ++
    [Piece.lit promptMid, Piece.lit (prefRender preferences), Piece.lit promptTail]

/-- The `i`-th ingredient of a list, defaulting to the empty record. -/
def getIng (ings : List Ingredient) (i : Nat) : Ingredient :=
  (ings.drop i).headD ⟨none, none, none, none⟩

/-- The string a piece stands for, given the ingredient list. -/
def renderPiece (ings : List Ingredient) : Piece → String
  | .lit s => s
  | .nameAt i => (getIng ings i).name.getD ""
  | .qtyAt i => (getIng ings i).quantity.getD ""
  | .unitAt i => (getIng ings i).unit.getD ""
  | .locAt i => (getIng ings i).location.getD "Kitchen"

/-- Concatenation of the rendered pieces. -/
def renderAll (ings : List Ingredient) (ps : List Piece) : String :=
  ps.foldr (fun p acc => renderPiece ings p ++ acc) ""


/-- The line `formatLine` builds once the `'name'` key is present, with the
name read through `getD` (proof-side normal form). -/
def lineStr (ing : Ingredient) : String :=
  ing.name.getD "" ++ " (" ++ ing.quantity.getD "" ++ " " ++ ing.unit.getD "" ++
    ", stored in " ++ ing.location.getD "Kitchen" ++ ")"

theorem renderAll_nil (ings : List Ingredient) : renderAll ings [] = "" := rfl

theorem renderAll_cons (ings : List Ingredient) (p : Piece) (ps : List Piece) :
    renderAll ings (p :: ps) = renderPiece ings p ++ renderAll ings ps := rfl

theorem renderAll_append (ings : List Ingredient) (xs ys : List Piece) :
    renderAll ings (xs ++ ys) = renderAll ings xs ++ renderAll ings ys := by
  induction xs with
  | nil => rw [List.nil_append, renderAll_nil, String.empty_append]
  | cons p xs ih =>
      rw [List.cons_append, renderAll_cons, renderAll_cons, ih, String.append_assoc]

theorem getIng_of_drop {ings l : List Ingredient} {s : Nat} {a : Ingredient}
    (h : ings.drop s = a :: l) : getIng ings s = a := by
  unfold getIng
  rw [h]
  rfl

theorem renderAll_block {ings : List Ingredient} {s : Nat} {a : Ingredient}
    (h : getIng ings s = a) :
    renderAll ings (blockPieces s) = lineStr a := by
  simp [renderAll, blockPieces, renderPiece, h, lineStr, String.append_assoc,
    String.append_empty]

theorem row_join (ings : List Ingredient) :
    ∀ (l : List Ingredient) (s : Nat), ings.drop s = l →
      renderAll ings (rowPieces s l.length) = joinNL (l.map lineStr)
  | [], s, _ => by simp [rowPieces, joinNL, renderAll_nil]
  | [a], s, h => by
      show renderAll ings (rowPieces s 1) = joinNL ([a].map lineStr)
      rw [show rowPieces s 1 = blockPieces s from rfl]
      rw [renderAll_block (getIng_of_drop h)]
      simp [joinNL]
  | a :: b :: rest, s, h => by
      have hdrop : ings.drop (s + 1) = b :: rest := by
        have h2 : (ings.drop s).drop 1 = ings.drop (s + 1) := List.drop_drop 1 s ings
        rw [h] at h2
        exact h2.symm
      have ih := row_join ings (b :: rest) (s + 1) hdrop
      show renderAll ings (rowPieces s (rest.length + 2)) = _
      rw [show rowPieces s (rest.length + 2) =
            blockPieces s ++ Piece.lit "\n" :: rowPieces (s + 1) (rest.length + 1)
          from rfl]
      rw [renderAll_append, renderAll_cons, renderAll_block (getIng_of_drop h)]
      rw [show (b :: rest).length = rest.length + 1 from rfl] at ih
      rw [ih]
      simp [joinNL, renderPiece, List.map_cons, String.append_assoc]

theorem count_block_nameAt (s i : Nat) :
    (blockPieces s).count (Piece.nameAt i) = if i = s then 1 else 0 := by
  by_cases h : i = s <;> simp [blockPieces, h, List.count_cons]

theorem count_block_qtyAt (s i : Nat) :
    (blockPieces s).count (Piece.qtyAt i) = if i = s then 1 else 0 := by
  by_cases h : i = s <;> simp [blockPieces, h, List.count_cons]

theorem count_block_unitAt (s i : Nat) :
    (blockPieces s).count (Piece.unitAt i) = if i = s then 1 else 0 := by
  by_cases h : i = s <;> simp [blockPieces, h, List.count_cons]

theorem count_block_locAt (s i : Nat) :
    (blockPieces s).count (Piece.locAt i) = if i = s then 1 else 0 := by
  by_cases h : i = s <;> simp [blockPieces, h, List.count_cons]

theorem count_row_nameAt : ∀ (n s i : Nat),
    (rowPieces s n).count (Piece.nameAt i) = if s ≤ i ∧ i < s + n then 1 else 0
  | 0, s, i => by
      simp only [rowPieces, List.count_nil]
      rw [if_neg (by omega : ¬(s ≤ i ∧ i < s + 0))]
  | 1, s, i => by
      rw [show rowPieces s 1 = blockPieces s from rfl, count_block_nameAt]
      split_ifs <;> omega
  | n + 2, s, i => by
      have ih := count_row_nameAt (n + 1) (s + 1) i
      rw [show rowPieces s (n + 2) =
            blockPieces s ++ Piece.lit "\n" :: rowPieces (s + 1) (n + 1) from rfl]
      rw [List.count_append, List.count_cons, ih, count_block_nameAt]
      simp only [beq_iff_eq, reduceCtorEq, if_false]
      split_ifs <;> omega

theorem count_row_qtyAt : ∀ (n s i : Nat),
    (rowPieces s n).count (Piece.qtyAt i) = if s ≤ i ∧ i < s + n then 1 else 0
  | 0, s, i => by
      simp only [rowPieces, List.count_nil]
      rw [if_neg (by omega : ¬(s ≤ i ∧ i < s + 0))]
  | 1, s, i => by
      rw [show rowPieces s 1 = blockPieces s from rfl, count_block_qtyAt]
      split_ifs <;> omega
  | n + 2, s, i => by
      have ih := count_row_qtyAt (n + 1) (s + 1) i
      rw [show rowPieces s (n + 2) =
            blockPieces s ++ Piece.lit "\n" :: rowPieces (s + 1) (n + 1) from rfl]
      rw [List.count_append, List.count_cons, ih, count_block_qtyAt]
      simp only [beq_iff_eq, reduceCtorEq, if_false]
      split_ifs <;> omega

theorem count_row_unitAt : ∀ (n s i : Nat),
    (rowPieces s n).count (Piece.unitAt i) = if s ≤ i ∧ i < s + n then 1 else 0
  | 0, s, i => by
      simp only [rowPieces, List.count_nil]
      rw [if_neg (by omega : ¬(s ≤ i ∧ i < s + 0))]
  | 1, s, i => by
      rw [show rowPieces s 1 = blockPieces s from rfl, count_block_unitAt]
      split_ifs <;> omega
  | n + 2, s, i => by
      have ih := count_row_unitAt (n + 1) (s + 1) i
      rw [show rowPieces s (n + 2) =
            blockPieces s ++ Piece.lit "\n" :: rowPieces (s + 1) (n + 1) from rfl]
      rw [List.count_append, List.count_cons, ih, count_block_unitAt]
      simp only [beq_iff_eq, reduceCtorEq, if_false]
      split_ifs <;> omega

theorem count_row_locAt : ∀ (n s i : Nat),
    (rowPieces s n).count (Piece.locAt i) = if s ≤ i ∧ i < s + n then 1 else 0
  | 0, s, i => by
      simp only [rowPieces, List.count_nil]
      rw [if_neg (by omega : ¬(s ≤ i ∧ i < s + 0))]
  | 1, s, i => by
      rw [show rowPieces s 1 = blockPieces s from rfl, count_block_locAt]
      split_ifs <;> omega
  | n + 2, s, i => by
      have ih := count_row_locAt (n + 1) (s + 1) i
      rw [show rowPieces s (n + 2) =
            blockPieces s ++ Piece.lit "\n" :: rowPieces (s + 1) (n + 1) from rfl]
      rw [List.count_append, List.count_cons, ih, count_block_locAt]
      simp only [beq_iff_eq, reduceCtorEq, if_false]
      split_ifs <;> omega

theorem count_prompt_nameAt (n : Nat) (prefs : Option String) (i : Nat) (h : i < n) :
    (promptPieces n prefs).count (Piece.nameAt i) = 1 := by
  rw [promptPieces, List.count_append, List.count_cons, count_row_nameAt]
  rw [if_pos (⟨Nat.zero_le i, by omega⟩ : 0 ≤ i ∧ i < 0 + n)]
  simp

theorem count_prompt_qtyAt (n : Nat) (prefs : Option String) (i : Nat) (h : i < n) :
    (promptPieces n prefs).count (Piece.qtyAt i) = 1 := by
  rw [promptPieces, List.count_append, List.count_cons, count_row_qtyAt]
  rw [if_pos (⟨Nat.zero_le i, by omega⟩ : 0 ≤ i ∧ i < 0 + n)]
  simp

theorem count_prompt_unitAt (n : Nat) (prefs : Option String) (i : Nat) (h : i < n) :
    (promptPieces n prefs).count (Piece.unitAt i) = 1 := by
  rw [promptPieces, List.count_append, List.count_cons, count_row_unitAt]
  rw [if_pos (⟨Nat.zero_le i, by omega⟩ : 0 ≤ i ∧ i < 0 + n)]
  simp

theorem count_prompt_locAt (n : Nat) (prefs : Option String) (i : Nat) (h : i < n) :
    (promptPieces n prefs).count (Piece.locAt i) = 1 := by
  rw [promptPieces, List.count_append, List.count_cons, count_row_locAt]
  rw [if_pos (⟨Nat.zero_le i, by omega⟩ : 0 ≤ i ∧ i < 0 + n)]
  simp

theorem formatLines_of_names {ings : List Ingredient}
    (h : ∀ ing ∈ ings, ing.name.isSome) :
    formatLines ings = some (ings.map lineStr) := by
  induction ings with
  | nil => rfl
  | cons ing rest ih =>
      obtain ⟨n, hn⟩ := Option.isSome_iff_exists.mp (h ing (by simp))
      have hrest := ih (fun i hi => h i (by simp [hi]))
      simp [formatLines, formatLine, hn, hrest, lineStr, List.map_cons]

theorem formatLines_none_of_missing {ings : List Ingredient}
    (h : ∃ ing ∈ ings, ing.name = none) :
    formatLines ings = none := by
  induction ings with
  | nil => simp at h
  | cons ing rest ih =>
      by_cases hn : ing.name = none
      · simp [formatLines, formatLine, hn]
      · obtain ⟨j, hj, hjn⟩ := h
        rcases List.mem_cons.mp hj with rfl | hmem
        · exact absurd hjn hn
        · obtain ⟨m, hm⟩ := Option.ne_none_iff_exists'.mp hn
          simp [formatLines, formatLine, hm, ih ⟨j, hmem, hjn⟩]

theorem buildPrompt_ok_of_names {ings : List Ingredient} (prefs : Option String)
    (h : ∀ ing ∈ ings, ing.name.isSome) :
    buildPrompt ings prefs =
      .ok (promptHead ++ joinNL (ings.map lineStr) ++ promptMid ++
        prefRender prefs ++ promptTail) := by
  simp [buildPrompt, formatLines_of_names h]

theorem buildPrompt_renderAll {ings : List Ingredient} (prefs : Option String)
    (h : ∀ ing ∈ ings, ing.name.isSome) :
    buildPrompt ings prefs = .ok (renderAll ings (promptPieces ings.length prefs)) := by
  rw [buildPrompt_ok_of_names prefs h]
  congr 1
  rw [promptPieces, renderAll_append, renderAll_cons]
  rw [row_join ings ings 0 rfl]
  simp [renderAll, renderPiece, String.append_assoc, String.append_empty]

theorem buildPrompt_err_of_missing {ings : List Ingredient} (prefs : Option String)
    (h : ∃ ing ∈ ings, ing.name = none) :
    buildPrompt ings prefs = .error (.keyError "name") := by
  simp [buildPrompt, formatLines_none_of_missing h]

/-- A `buildPrompt` failure is always the `KeyError('name')` from the list
comprehension, never any other exception. -/
theorem buildPrompt_error_eq {ings : List Ingredient} {prefs : Option String}
    {e : PyError} (h : buildPrompt ings prefs = .error e) :
    e = PyError.keyError "name" := by
  rw [buildPrompt] at h
  cases hf : formatLines ings <;> rw [hf] at h <;> simp at h
  exact h.symm

/-- C1: for a fixed ingredient list and preference string, the prompt built
by `get_recipe_recommendations` is deterministic (equal inputs give equal
prompts), rendering the symbolic decomposition `promptPieces` yields exactly
the built prompt, and that decomposition interpolates each ingredient's
name, quantity, unit, and location exactly once. -/
theorem c1_prompt_deterministic_fields_once
    (ings ings2 : List Ingredient) (prefs prefs2 : Option String)
    (heq1 : ings = ings2) (heq2 : prefs = prefs2)
    (hnames : ∀ ing ∈ ings, ing.name.isSome) :
    buildPrompt ings prefs = buildPrompt ings2 prefs2
    ∧ buildPrompt ings prefs = .ok (renderAll ings (promptPieces ings.length prefs))
    ∧ ∀ i, i < ings.length →
        (promptPieces ings.length prefs).count (Piece.nameAt i) = 1
        ∧ (promptPieces ings.length prefs).count (Piece.qtyAt i) = 1
        ∧ (promptPieces ings.length prefs).count (Piece.unitAt i) = 1
        ∧ (promptPieces ings.length prefs).count (Piece.locAt i) = 1 := by
  subst heq1
  subst heq2
  exact ⟨rfl, buildPrompt_renderAll prefs hnames, fun i hi =>
    ⟨count_prompt_nameAt _ _ _ hi, count_prompt_qtyAt _ _ _ hi,
     count_prompt_unitAt _ _ _ hi, count_prompt_locAt _ _ _ hi⟩⟩

/-- Witness for C1 at the test script's first ingredient. -/
theorem c1_witness :
    buildPrompt [⟨some "Chicken", some "2", some "breasts", some "Fridge"⟩]
        (some "Healthy recipes with low sodium") =
      .ok (renderAll [⟨some "Chicken", some "2", some "breasts", some "Fridge"⟩]
        (promptPieces 1 (some "Healthy recipes with low sodium")))
    ∧ (promptPieces 1 (some "Healthy recipes with low sodium")).count
        (Piece.nameAt 0) = 1 := by
  have h := c1_prompt_deterministic_fields_once
    [⟨some "Chicken", some "2", some "breasts", some "Fridge"⟩]
    [⟨some "Chicken", some "2", some "breasts", some "Fridge"⟩]
    (some "Healthy recipes with low sodium") (some "Healthy recipes with low sodium")
    rfl rfl (by decide)
  exact ⟨h.2.1, (h.2.2 0 (by decide)).1⟩

/-- C2: with the credential unset, both methods fail with the
missing-credential `ValueError` and make no remote call. -/
theorem c2_missing_credential_before_network (api : RemoteAPI)
    (ings : List Ingredient) (prefs : Option String) :
    get_recipe_recommendations none api ings prefs =
      (.error (.valueError "GEMINI_API_KEY environment variable is not set"), [])
    ∧ test_connection none api =
      (.error (.valueError "GEMINI_API_KEY environment variable is not set"), []) :=
  ⟨rfl, rfl⟩

/-- C3: any failure of the remote call is re-raised as an exception whose
message is the original message prefixed with the fixed API-error text, in
both methods. -/
theorem c3_remote_failure_wrapped (apiKey : Option String) (api : RemoteAPI)
    (hk : truthy apiKey = true) :
    (∀ ings prefs p msg, buildPrompt ings prefs = .ok p →
        api.generate p = .error msg →
        (get_recipe_recommendations apiKey api ings prefs).1 =
          .error (.exception ("Error calling Gemini API: " ++ msg)))
    ∧ (∀ msg, api.generate testPrompt = .error msg →
        (test_connection apiKey api).1 =
          .error (.exception ("Error calling Gemini API: " ++ msg))) := by
  constructor
  · intro ings prefs p msg hp hg
    simp [get_recipe_recommendations, hk, hp, hg]
  · intro msg hg
    simp [test_connection, hk, hg]

/-- Witness for C3 with a remote stub that always raises. -/
theorem c3_witness :
    (get_recipe_recommendations (some "key") ⟨fun _ => .error "boom"⟩ [] none).1 =
      .error (.exception ("Error calling Gemini API: " ++ "boom"))
    ∧ (test_connection (some "key") ⟨fun _ => .error "boom"⟩).1 =
      .error (.exception ("Error calling Gemini API: " ++ "boom")) := by
  have h := c3_remote_failure_wrapped (some "key") ⟨fun _ => .error "boom"⟩ (by decide)
  exact ⟨h.1 [] none _ "boom" rfl rfl, h.2 "boom" rfl⟩

/-- C4: an ingredient with a name but without quantity, unit, or location
keys formats without raising; the missing location renders as "Kitchen" and
missing quantity and unit render as empty strings, and any all-named list
builds a prompt successfully. -/
theorem c4_missing_fields_default (n : String) (q u l : Option String)
    (prefs : Option String) :
    formatLine ⟨some n, q, u, l⟩ =
      some (n ++ " (" ++ q.getD "" ++ " " ++ u.getD "" ++ ", stored in " ++
        l.getD "Kitchen" ++ ")")
    ∧ formatLine ⟨some n, none, none, none⟩ = some (n ++ " ( , stored in Kitchen)")
    ∧ (∀ ings, (∀ ing ∈ ings, ing.name.isSome) →
        ∃ p, buildPrompt ings prefs = .ok p) := by
  refine ⟨rfl, ?_, fun ings h => ⟨_, buildPrompt_ok_of_names prefs h⟩⟩
  have hs : (" (" ++ ("" ++ (" " ++ ("" ++ (", stored in " ++ ("Kitchen" ++ ")"))))) :
      String) = " ( , stored in Kitchen)" := by decide
  simp [formatLine, String.append_assoc, hs]

/-- Witness for C4 at a record holding only a name. -/
theorem c4_witness :
    formatLine ⟨some "Milk", none, none, none⟩ =
      some ("Milk" ++ " ( , stored in Kitchen)")
    ∧ ∃ p, buildPrompt [⟨some "Milk", none, none, none⟩] none = .ok p := by
  have h := c4_missing_fields_default "Milk" none none none none
  exact ⟨h.2.1, h.2.2 [⟨some "Milk", none, none, none⟩] (by decide)⟩

/-- C5: on every successful run exactly one remote call is made, with the
built prompt, and its raw text is returned unchanged; no run ever makes two
remote calls. -/
theorem c5_single_call_raw_text (apiKey : Option String) (api : RemoteAPI)
    (ings : List Ingredient) (prefs : Option String) (t : String)
    (hok : (get_recipe_recommendations apiKey api ings prefs).1 = .ok t) :
    (∃ p, (get_recipe_recommendations apiKey api ings prefs).2 = [p]
       ∧ buildPrompt ings prefs = .ok p ∧ api.generate p = .ok t)
    ∧ ∀ (k2 : Option String) (a2 : RemoteAPI) (i2 : List Ingredient)
        (p2 : Option String),
        (get_recipe_recommendations k2 a2 i2 p2).2.length ≤ 1 := by
  constructor
  · by_cases hk : truthy apiKey = false
    · simp [get_recipe_recommendations, hk] at hok
    · cases hbp : buildPrompt ings prefs with
      | error e => simp [get_recipe_recommendations, if_neg hk, hbp] at hok
      | ok p =>
        cases hg : api.generate p with
        | error m => simp [get_recipe_recommendations, if_neg hk, hbp, hg] at hok
        | ok txt =>
            have ht : txt = t := by
              simpa [get_recipe_recommendations, if_neg hk, hbp, hg] using hok
            refine ⟨p, ?_, ?_, ?_⟩
            · simp [get_recipe_recommendations, if_neg hk, hbp, hg]
            · rfl
            · rw [hg, ht]
  · intro k2 a2 i2 p2
    rw [get_recipe_recommendations]
    split
    · simp
    · split
      · simp
      · split <;> simp

/-- Witness for C5 with a remote stub that returns fixed text. -/
theorem c5_witness :
    (∃ p, (get_recipe_recommendations (some "key") ⟨fun _ => .ok "recipes"⟩ [] none).2
        = [p]
       ∧ buildPrompt [] none = .ok p
       ∧ RemoteAPI.generate ⟨fun _ => .ok "recipes"⟩ p = .ok "recipes")
    ∧ ∀ (k2 : Option String) (a2 : RemoteAPI) (i2 : List Ingredient)
        (p2 : Option String),
        (get_recipe_recommendations k2 a2 i2 p2).2.length ≤ 1 :=
  c5_single_call_raw_text (some "key") ⟨fun _ => .ok "recipes"⟩ [] none "recipes" rfl

/-- C6: a successful `test_connection` sends exactly the canned test prompt
and returns the success label together with the raw remote response text. -/
theorem c6_test_connection_success (apiKey : Option String) (api : RemoteAPI)
    (r : TestResult) (hok : (test_connection apiKey api).1 = .ok r) :
    (test_connection apiKey api).2 = [testPrompt]
    ∧ r.message = "Gemini API test successful"
    ∧ api.generate testPrompt = .ok r.response := by
  by_cases hk : truthy apiKey = false
  · simp [test_connection, hk] at hok
  · cases hg : api.generate testPrompt with
    | error m => simp [test_connection, if_neg hk, hg] at hok
    | ok txt =>
        have hr : r = ⟨"Gemini API test successful", txt⟩ := by
          have := hok
          simp [test_connection, if_neg hk, hg] at this
          exact this.symm
        refine ⟨by simp [test_connection, if_neg hk, hg], by rw [hr], ?_⟩
        rw [hr]

/-- Witness for C6 with a remote stub that returns fixed text. -/
theorem c6_witness :
    (test_connection (some "key") ⟨fun _ => .ok "hello"⟩).2 = [testPrompt]
    ∧ TestResult.message ⟨"Gemini API test successful", "hello"⟩ =
        "Gemini API test successful"
    ∧ RemoteAPI.generate ⟨fun _ => .ok "hello"⟩ testPrompt =
        .ok (TestResult.response ⟨"Gemini API test successful", "hello"⟩) :=
  c6_test_connection_success (some "key") ⟨fun _ => .ok "hello"⟩
    ⟨"Gemini API test successful", "hello"⟩ rfl

/-- C7: the credential is the value captured at module import
(`startupKey`); the methods' entire behaviour, and in particular whether
they raise the missing-credential error, depends only on that captured
value, never on a re-read of the environment. -/
theorem c7_credential_captured_at_startup :
    (∀ env env2 : String → Option String,
        startupKey env = startupKey env2 →
        (∀ api ings prefs,
            get_recipe_recommendations (startupKey env) api ings prefs =
              get_recipe_recommendations (startupKey env2) api ings prefs)
        ∧ ∀ api, test_connection (startupKey env) api =
            test_connection (startupKey env2) api)
    ∧ (∀ (apiKey : Option String) (api : RemoteAPI) ings prefs,
        (get_recipe_recommendations apiKey api ings prefs).1 =
            .error (.valueError missingKeyMsg) ↔ truthy apiKey = false)
    ∧ (∀ (apiKey : Option String) (api : RemoteAPI),
        (test_connection apiKey api).1 = .error (.valueError missingKeyMsg) ↔
          truthy apiKey = false) := by
  refine ⟨fun env env2 h =>
    ⟨fun api ings prefs => by rw [h], fun api => by rw [h]⟩, ?_, ?_⟩
  · intro apiKey api ings prefs
    by_cases hk : truthy apiKey = false
    · simp [get_recipe_recommendations, hk]
    · rw [get_recipe_recommendations, if_neg hk]
      cases hbp : buildPrompt ings prefs with
      | error e =>
          have he := buildPrompt_error_eq hbp
          subst he
          simp [hk]
      | ok p =>
          cases hg : api.generate p with
          | error m => simp [hk, hg]
          | ok txt => simp [hk, hg]
  · intro apiKey api
    by_cases hk : truthy apiKey = false
    · simp [test_connection, hk]
    · rw [test_connection, if_neg hk]
      cases hg : api.generate testPrompt with
      | error m => simp [hk]
      | ok txt => simp [hk]

/-- Witness for C7: two different environments with the same credential
value are indistinguishable, and the missing-credential test at `none`. -/
theorem c7_witness :
    get_recipe_recommendations (startupKey fun _ => some "key")
        ⟨fun _ => .ok "t"⟩ [] none =
      get_recipe_recommendations
        (startupKey fun s => if s = "GEMINI_API_KEY" then some "key" else none)
        ⟨fun _ => .ok "t"⟩ [] none
    ∧ ((get_recipe_recommendations none ⟨fun _ => .ok "t"⟩ [] none).1 =
        .error (.valueError missingKeyMsg) ↔ truthy none = false) :=
  ⟨(c7_credential_captured_at_startup.1 _ _ (by simp [startupKey])).1
      ⟨fun _ => .ok "t"⟩ [] none,
    c7_credential_captured_at_startup.2.1 none ⟨fun _ => .ok "t"⟩ [] none⟩

/-- C8: a record without a `'name'` key makes `get_recipe_recommendations`
raise `KeyError('name')` during prompt construction — unwrapped, with no
remote call — while any list whose records all carry a name builds fine
(`'name'` is the only required key). -/
theorem c8_missing_name_keyerror (apiKey : Option String) (api : RemoteAPI)
    (ings : List Ingredient) (prefs : Option String)
    (hk : truthy apiKey = true)
    (hmiss : ∃ ing ∈ ings, ing.name = none) :
    (get_recipe_recommendations apiKey api ings prefs).1 = .error (.keyError "name")
    ∧ (get_recipe_recommendations apiKey api ings prefs).2 = []
    ∧ (∀ ings2, (∀ ing ∈ ings2, ing.name.isSome) →
        ∃ p, buildPrompt ings2 prefs = .ok p) := by
  have hbp := buildPrompt_err_of_missing prefs hmiss
  refine ⟨?_, ?_, fun ings2 h2 => ⟨_, buildPrompt_ok_of_names prefs h2⟩⟩ <;>
    simp [get_recipe_recommendations, hk, hbp]

/-- Witness for C8 at a single nameless record. -/
theorem c8_witness :
    (get_recipe_recommendations (some "key") ⟨fun _ => .ok "t"⟩
        [⟨none, none, none, none⟩] none).1 = .error (.keyError "name")
    ∧ (get_recipe_recommendations (some "key") ⟨fun _ => .ok "t"⟩
        [⟨none, none, none, none⟩] none).2 = [] := by
  have h := c8_missing_name_keyerror (some "key") ⟨fun _ => .ok "t"⟩
    [⟨none, none, none, none⟩] none (by decide)
    ⟨⟨none, none, none, none⟩, by simp, rfl⟩
  exact ⟨h.1, h.2.1⟩

/-- C9: an empty preference string and an absent preference build the same
prompt, both rendering the default preferences text, and the whole method
behaves identically on the two. -/
theorem c9_empty_prefs_eq_none (ings : List Ingredient) :
    buildPrompt ings (some "") = buildPrompt ings none
    ∧ prefRender (some "") = "No specific preferences"
    ∧ prefRender none = "No specific preferences"
    ∧ ∀ (apiKey : Option String) (api : RemoteAPI),
        get_recipe_recommendations apiKey api ings (some "") =
          get_recipe_recommendations apiKey api ings none :=
  ⟨rfl, rfl, rfl, fun _ _ => rfl⟩

/-- C10: the empty ingredient list builds a prompt without raising, its
ingredient section is the empty join, and the remote call is still made
with that prompt. -/
theorem c10_empty_ingredients (apiKey : Option String) (api : RemoteAPI)
    (prefs : Option String) (hk : truthy apiKey = true) :
    joinNL ([] : List String) = ""
    ∧ buildPrompt [] prefs =
        .ok (promptHead ++ joinNL [] ++ promptMid ++ prefRender prefs ++ promptTail)
    ∧ ∃ p, buildPrompt [] prefs = .ok p
        ∧ (get_recipe_recommendations apiKey api [] prefs).2 = [p] := by
  refine ⟨rfl, rfl,
    promptHead ++ joinNL [] ++ promptMid ++ prefRender prefs ++ promptTail, rfl, ?_⟩
  have hbp : buildPrompt [] prefs =
      .ok (promptHead ++ joinNL [] ++ promptMid ++ prefRender prefs ++ promptTail) := rfl
  rw [get_recipe_recommendations, if_neg (by simp [hk])]
  cases hg : api.generate
      (promptHead ++ joinNL [] ++ promptMid ++ prefRender prefs ++ promptTail) <;>
    simp [hbp, hg]

/-- Witness for C10 with the credential set and a remote stub. -/
theorem c10_witness :
    joinNL ([] : List String) = ""
    ∧ buildPrompt [] none =
        .ok (promptHead ++ joinNL [] ++ promptMid ++ prefRender none ++ promptTail)
    ∧ ∃ p, buildPrompt [] none = .ok p
        ∧ (get_recipe_recommendations (some "key") ⟨fun _ => .ok "t"⟩ [] none).2 =
            [p] :=
  c10_empty_ingredients (some "key") ⟨fun _ => .ok "t"⟩ none (by decide)
